import Mathlib

/-!
Verification of a chess-platform backend: a document-persistence facade over a
document store (create/list per record kind) plus a closest-rating matchmaking
scan.  Definitions below are shallow embeddings of `main.py` and `schemas.py`;
the store adapter (`database.py`: `create_document`, `get_documents`) and the
store identifier scheme are modelled from the design document where noted.
-/

set_option autoImplicit false

/-- Internal store identifier (bson `ObjectId`), carried as its 24-hex-char
string payload; `str()` of it yields exactly that payload. -/
structure ObjectId where
  hex : String
deriving DecidableEq, Repr

/-- A character of the store identifier alphabet (hexadecimal digit). -/
def isHexChar (c : Char) : Bool :=
  (('0' ≤ c && c ≤ '9') || ('a' ≤ c && c ≤ 'f') || ('A' ≤ c && c ≤ 'F'))

/-- Modelled from the spec: the store's identifier scheme (`database.py` /
the bson `ObjectId(str)` constructor are not under `src/`).  The spec calls an
external identifier well-formed unless it has the "wrong length or character
set for the store's identifier scheme", the scheme being "a fixed-length
hexadecimal token": a 24-character hexadecimal string. -/
def validObjectIdString (s : String) : Bool :=
  s.length == 24 && s.data.all isHexChar

/-- The structured error raised through FastAPI's `HTTPException`. -/
structure HTTPError where
  status : Nat
  detail : String
deriving DecidableEq, Repr

/-- `oid` from `main.py`: parse an external identifier string back into the
internal `ObjectId` form; on any parse failure report status 400 "Invalid id"
(the spec's `InvalidIdentifier`). -/
def oid (id_str : String) : Except HTTPError ObjectId :=
  if validObjectIdString id_str then .ok ⟨id_str⟩
  else .error ⟨400, "Invalid id"⟩

/-- A stored field value (the fragment of bson the endpoints touch). -/
inductive Value where
  | vStr : String → Value
  | vInt : Int → Value
  | vOid : ObjectId → Value
  | vStrList : List String → Value
deriving DecidableEq, Repr

/-- Python `str()` on a stored value (used for `str(d.pop("_id"))`;
`str(ObjectId)` is the 24-hex payload). -/
def Value.pyStr : Value → String
  | .vStr s => s
  | .vInt n => toString n
  | .vOid o => o.hex
  | .vStrList l => toString l

/-- A stored document: a finite mapping from field names to values, in field
order (Python `dict`). -/
def Doc : Type := List (String × Value)

instance : DecidableEq Doc := by
  unfold Doc
  infer_instance

/-- `d[k]` lookup (first binding wins; store-produced docs have unique keys). -/
def Doc.lookup (d : Doc) (k : String) : Option Value :=
  match d with
  | [] => none
  | (k', v) :: rest => if k' = k then some v else Doc.lookup rest k

/-- `d.pop(k)` key removal. -/
def Doc.erase (d : Doc) (k : String) : Doc :=
  match d with
  | [] => []
  | (k', v) :: rest => if k' = k then Doc.erase rest k else (k', v) :: Doc.erase rest k

/-- `d[k] = v` assignment: replace an existing binding in place, else append. -/
def Doc.set (d : Doc) (k : String) (v : Value) : Doc :=
  match d with
  | [] => [(k, v)]
  | (k', v') :: rest => if k' = k then (k, v) :: rest else (k', v') :: Doc.set rest k v

/-- The document store: collection name ↦ stored documents, in insertion
order. -/
def Store : Type := String → List Doc

/-- Modelled from the spec: a document matches a filter iff every filter field
is present with the given value (empty filter matches all) — the adapter
`query`'s matching rule; `database.py` is not under `src/`. -/
def matchesFilter (filt : Doc) (d : Doc) : Bool :=
  filt.all (fun kv => d.lookup kv.1 == some kv.2)

/-- Modelled from the spec: `get_documents` of `database.py` (not under
`src/`): `query(collection, filter, limit)` returns at most `limit` documents
of the named collection whose fields match the filter, in store order. -/
def get_documents (c : String) (filt : Doc) (limit : Nat) (store : Store) : List Doc :=
  ((store c).filter (matchesFilter filt)).take limit

/-- Modelled from the spec: `create_document` of `database.py` (not under
`src/`): serialize the record field-for-field, insert it into the named
collection with a freshly generated `_id`, and return the new identifier as
its external string form.  Identifier generation is nondeterministic in the
store, so the fresh id is a parameter. -/
def create_document (c : String) (d : Doc) (newId : ObjectId) (store : Store) :
    String × Store :=
  (newId.hex,
   fun c' => if c' = c then store c ++ [d.set "_id" (.vOid newId)] else store c')

/- ## Record schemas (`schemas.py`) -/

/-- Raised when constructing a record from raw input violates a declared field
constraint; carries the violating field's name. -/
structure ValidationError where
  field : String
deriving DecidableEq, Repr

/-- The `User` record: validated shape. -/
structure User where
  username : String
  display_name : Option String
  email : Option String
  rating : Int
  country : Option String
deriving DecidableEq, Repr

/-- Raw input for constructing a `User`; `none` means the field was omitted. -/
structure UserInput where
  username : String
  display_name : Option String
  email : Option String
  rating : Option Int
  country : Option String
deriving DecidableEq, Repr

/-- Pydantic construction of `User` (`schemas.py`): `username` 3–32 chars,
`display_name` at most 64 chars when present, `rating` an integer in
[100, 4000] defaulting to 1200; `email` and `country` unconstrained. -/
def mkUser (i : UserInput) : Except ValidationError User :=
  if ¬ (3 ≤ i.username.length ∧ i.username.length ≤ 32) then .error ⟨"username"⟩
  else if (match i.display_name with
           | some s => decide (64 < s.length)
           | none => false : Bool) then .error ⟨"display_name"⟩
  else
    let r := i.rating.getD 1200
    if ¬ (100 ≤ r ∧ r ≤ 4000) then .error ⟨"rating"⟩
    else .ok ⟨i.username, i.display_name, i.email, r, i.country⟩

/-- Game status literal. -/
inductive GStatus where
  | ongoing | white_won | black_won | draw
deriving DecidableEq, Repr

/-- Time-control literal. -/
inductive TimeControl where
  | bullet | blitz | rapid | classical
deriving DecidableEq, Repr

/-- Side-to-move literal. -/
inductive Turn where
  | w | b
deriving DecidableEq, Repr

/-- Default FEN of a fresh `Game` (`schemas.py`). -/
def defaultFen : String :=
  "rn1qkbnr/pp3ppp/2p1p3/3p4/3P4/2N1PN2/PPP2PPP/R1BQKB1R w KQkq - 0 1"

/-- The `Game` record: validated shape. -/
structure Game where
  white_id : String
  black_id : String
  status : GStatus
  time_control : TimeControl
  increment : Int
  fen : String
  moves : List String
  turn : Turn
  white_time_ms : Int
  black_time_ms : Int
deriving DecidableEq, Repr

/-- Pydantic construction of `Game` (`schemas.py`): enum fields are typed,
`increment` in [0, 60], both clocks nonnegative.  There is no constraint
relating `white_id` to `black_id`, nor `status` to `moves`. -/
def mkGame (white_id black_id : String) (status : GStatus) (time_control : TimeControl)
    (increment : Int) (fen : String) (moves : List String) (turn : Turn)
    (white_time_ms black_time_ms : Int) : Except ValidationError Game :=
  if ¬ (0 ≤ increment ∧ increment ≤ 60) then .error ⟨"increment"⟩
  else if ¬ (0 ≤ white_time_ms) then .error ⟨"white_time_ms"⟩
  else if ¬ (0 ≤ black_time_ms) then .error ⟨"black_time_ms"⟩
  else .ok ⟨white_id, black_id, status, time_control, increment, fen, moves, turn,
            white_time_ms, black_time_ms⟩

/-- The `Puzzle` record. -/
structure Puzzle where
  fen : String
  moves : List String
  themes : List String
  rating : Int
deriving DecidableEq, Repr

/-- The `Lesson` record (its two literal fields kept as validated strings). -/
structure Lesson where
  title : String
  content : String
  topic : String
  difficulty : String
deriving DecidableEq, Repr

/-- The `ChatMessage` record. -/
structure ChatMessage where
  game_id : String
  user_id : String
  text : String
deriving DecidableEq, Repr

/- ## Serialization of records to documents (pydantic `dict()`) -/

/-- Serialize an optional string field (Python `None` ↦ absent here would be
wrong: pydantic includes it as null; we store it as its value or skip —
the endpoints never read these back, so encode `none` as empty marker). -/
def optStrFields (k : String) (v : Option String) : List (String × Value) :=
  match v with
  | some s => [(k, .vStr s)]
  | none => []

/-- `User` as a stored document. -/
def User.toDoc (u : User) : Doc :=
  [("username", .vStr u.username)] ++ optStrFields "display_name" u.display_name
    ++ optStrFields "email" u.email ++ [("rating", .vInt u.rating)]
    ++ optStrFields "country" u.country

/-- `GStatus` literal string. -/
def GStatus.str : GStatus → String
  | .ongoing => "ongoing"
  | .white_won => "white_won"
  | .black_won => "black_won"
  | .draw => "draw"

/-- `TimeControl` literal string. -/
def TimeControl.str : TimeControl → String
  | .bullet => "bullet"
  | .blitz => "blitz"
  | .rapid => "rapid"
  | .classical => "classical"

/-- `Turn` literal string. -/
def Turn.str : Turn → String
  | .w => "w"
  | .b => "b"

/-- Parse a raw `time_control` payload string against the `Literal` type. -/
def parseTimeControl (s : String) : Option TimeControl :=
  if s = "bullet" then some .bullet
  else if s = "blitz" then some .blitz
  else if s = "rapid" then some .rapid
  else if s = "classical" then some .classical
  else none

/-- `Game` as a stored document. -/
def Game.toDoc (g : Game) : Doc :=
  [("white_id", .vStr g.white_id), ("black_id", .vStr g.black_id),
   ("status", .vStr g.status.str), ("time_control", .vStr g.time_control.str),
   ("increment", .vInt g.increment), ("fen", .vStr g.fen),
   ("moves", .vStrList g.moves), ("turn", .vStr g.turn.str),
   ("white_time_ms", .vInt g.white_time_ms), ("black_time_ms", .vInt g.black_time_ms)]

/-- `Puzzle` as a stored document. -/
def Puzzle.toDoc (p : Puzzle) : Doc :=
  [("fen", .vStr p.fen), ("moves", .vStrList p.moves),
   ("themes", .vStrList p.themes), ("rating", .vInt p.rating)]

/-- `Lesson` as a stored document. -/
def Lesson.toDoc (l : Lesson) : Doc :=
  [("title", .vStr l.title), ("content", .vStr l.content),
   ("topic", .vStr l.topic), ("difficulty", .vStr l.difficulty)]

/-- `ChatMessage` as a stored document. -/
def ChatMessage.toDoc (m : ChatMessage) : Doc :=
  [("game_id", .vStr m.game_id), ("user_id", .vStr m.user_id), ("text", .vStr m.text)]

/- ## List endpoints (`main.py`) -/

/-- One iteration of the listing rewrite loop: `d["id"] = str(d.pop("_id"))`.
`pop` on a document with no `_id` raises `KeyError`, modelled as `none`. -/
def rewriteId (d : Doc) : Option Doc :=
  match d.lookup "_id" with
  | some v => some ((d.erase "_id").set "id" (.vStr v.pyStr))
  | none => none

/-- The rewrite loop over all fetched documents. -/
def rewriteAll : List Doc → Option (List Doc)
  | [] => some []
  | d :: rest =>
    match rewriteId d with
    | none => none
    | some d' =>
      match rewriteAll rest with
      | none => none
      | some r => some (d' :: r)

/-- The shared body of every `GET` listing endpoint: fetch at most `limit`
matching documents of the collection and rewrite `_id` into `id`. -/
def list_op (c : String) (filt : Doc) (limit : Nat) (store : Store) :
    Option (List Doc) :=
  rewriteAll (get_documents c filt limit store)

/-- `GET /users` (`list_users` in `main.py`). -/
def list_users (limit : Nat) (store : Store) : Option (List Doc) :=
  list_op "user" [] limit store

/-- `GET /games` (`list_games` in `main.py`). -/
def list_games (limit : Nat) (store : Store) : Option (List Doc) :=
  list_op "game" [] limit store

/-- `GET /puzzles` (`list_puzzles` in `main.py`). -/
def list_puzzles (limit : Nat) (store : Store) : Option (List Doc) :=
  list_op "puzzle" [] limit store

/-- `GET /lessons` (`list_lessons` in `main.py`). -/
def list_lessons (limit : Nat) (store : Store) : Option (List Doc) :=
  list_op "lesson" [] limit store

/-- The chat filter: `filt = ("game_id": game_id) if game_id else ()` — both
`None` and the empty string are falsy in Python, so both yield the empty
filter. -/
def chatFilter (game_id : Option String) : Doc :=
  match game_id with
  | none => []
  | some g => if g = "" then [] else [("game_id", .vStr g)]

/-- `GET /chat` (`list_chat` in `main.py`). -/
def list_chat (game_id : Option String) (limit : Nat) (store : Store) :
    Option (List Doc) :=
  list_op "chatmessage" (chatFilter game_id) limit store

/- ## Create endpoints (`main.py`) -/

/-- `POST /users` (`create_user` in `main.py`). -/
def create_user (user : User) (newId : ObjectId) (store : Store) : String × Store :=
  create_document "user" user.toDoc newId store

/-- The `POST /games` request payload. -/
structure CreateGameRequest where
  white_id : String
  black_id : String
  time_control : String
  increment : Int
deriving DecidableEq, Repr

/-- Construct the `Game` record from a `CreateGameRequest` exactly as
`create_game` does: defaults for every field the payload does not carry. -/
def gameOfPayload (p : CreateGameRequest) : Except ValidationError Game :=
  match parseTimeControl p.time_control with
  | none => .error ⟨"time_control"⟩
  | some tc => mkGame p.white_id p.black_id .ongoing tc p.increment defaultFen [] .w
      300000 300000

/-- `POST /games` (`create_game` in `main.py`). -/
def create_game (payload : CreateGameRequest) (newId : ObjectId) (store : Store) :
    Except ValidationError (String × Store) :=
  (gameOfPayload payload).map (fun g => create_document "game" g.toDoc newId store)

/-- `POST /puzzles` (`create_puzzle` in `main.py`). -/
def create_puzzle (puzzle : Puzzle) (newId : ObjectId) (store : Store) : String × Store :=
  create_document "puzzle" puzzle.toDoc newId store

/-- `POST /lessons` (`create_lesson` in `main.py`). -/
def create_lesson (lesson : Lesson) (newId : ObjectId) (store : Store) : String × Store :=
  create_document "lesson" lesson.toDoc newId store

/-- `POST /chat` (`post_chat` in `main.py`). -/
def post_chat (msg : ChatMessage) (newId : ObjectId) (store : Store) : String × Store :=
  create_document "chatmessage" msg.toDoc newId store

/- ## Matchmaking (`matchmake` in `main.py`) -/

/-- A fetched document of the `user` collection as `matchmake` reads it:
its `_id` (always present on stored documents), and the `username` and
`rating` fields accessed through `.get` (absent ↦ `None` / default). -/
structure UserDoc where
  oid : ObjectId
  username : Option String
  rating : Option Int
deriving DecidableEq, Repr

/-- `str(u.get("_id"))`. -/
def UserDoc.idStr (u : UserDoc) : String := u.oid.hex

/-- `int(u.get("rating", 1200))`. -/
def UserDoc.ratingVal (u : UserDoc) : Int := u.rating.getD 1200

/-- `abs(int(u.get("rating", 1200)) - int(me.get("rating", 1200)))`. -/
def diffTo (myr : Int) (u : UserDoc) : Nat := (u.ratingVal - myr).natAbs

/-- The opponent summary of a successful match response. -/
structure Opponent where
  id : String
  username : Option String
  rating : Int
deriving DecidableEq, Repr

/-- The `/matchmake` response: 404 "User not found", `found: False`, or
`found: True` with an opponent summary. -/
inductive MatchResult where
  | userNotFound : MatchResult
  | noneFound : MatchResult
  | matched : Opponent → MatchResult
deriving DecidableEq, Repr

/-- The selection loop of `matchmake`: scan the fetched users in order,
skipping every document whose external id equals the requester's, keeping the
first candidate whose rating difference is strictly below the best so far
(initially `best = None`, `best_diff = 10^9`). -/
def bestLoop (uid : String) (myr : Int) :
    List UserDoc → Option UserDoc → Nat → Option UserDoc
  | [], best, _ => best
  | u :: rest, best, bestDiff =>
    if u.idStr == uid then bestLoop uid myr rest best bestDiff
    else if diffTo myr u < bestDiff then bestLoop uid myr rest (some u) (diffTo myr u)
    else bestLoop uid myr rest best bestDiff

/-- `POST /matchmake` (`matchmake` in `main.py`), over the fetched user set:
locate the requester by external id (404 if absent), scan for the
closest-rated other user, and report `found: False` or the opponent's id,
username and rating. -/
def matchmake (users : List UserDoc) (user_id : String) : MatchResult :=
  match users.find? (fun u => u.idStr == user_id) with
  | none => .userNotFound
  | some me =>
    match bestLoop user_id me.ratingVal users none (10 ^ 9) with
    | none => .noneFound
    | some best => .matched ⟨best.idStr, best.username, best.rating.getD 1200⟩

/-- The spec's collection-naming derivation: `lowercase(recordKindName)`,
character-wise ASCII lowercasing of the record-kind (class) name. -/
def lowercaseName (s : String) : String := ⟨s.data.map Char.toLower⟩

/- ## Association-list document lemmas -/

theorem Doc.lookup_erase_self (d : Doc) (k : String) : (d.erase k).lookup k = none := by
  induction d with
  | nil => rfl
  | cons kv rest ih =>
    obtain ⟨k', v⟩ := kv
    by_cases h : k' = k
    · simpa [Doc.erase, h] using ih
    · simpa [Doc.erase, Doc.lookup, h] using ih

theorem Doc.lookup_set_self (d : Doc) (k : String) (v : Value) :
    (d.set k v).lookup k = some v := by
  induction d with
  | nil => simp [Doc.set, Doc.lookup]
  | cons kv rest ih =>
    obtain ⟨k', v'⟩ := kv
    by_cases h : k' = k
    · simp [Doc.set, Doc.lookup, h]
    · simp [Doc.set, Doc.lookup, h, ih]

theorem Doc.lookup_set_ne (d : Doc) (k k' : String) (v : Value) (h : k' ≠ k) :
    (d.set k v).lookup k' = d.lookup k' := by
  induction d with
  | nil =>
    simp only [Doc.set, Doc.lookup]
    rw [if_neg (fun hh => h hh.symm)]
  | cons kv rest ih =>
    obtain ⟨k'', v''⟩ := kv
    by_cases hk : k'' = k
    · subst hk
      simp [Doc.set, Doc.lookup, h, Ne.symm h]
    · simp [Doc.set, Doc.lookup, hk, ih]

/- ## Listing-rewrite lemmas -/

theorem rewriteId_ok (d : Doc) (o : ObjectId) (h : d.lookup "_id" = some (.vOid o)) :
    ∃ d', rewriteId d = some d' ∧ d'.lookup "_id" = none ∧
      d'.lookup "id" = some (.vStr o.hex) := by
  refine ⟨(d.erase "_id").set "id" (.vStr o.hex), by simp [rewriteId, h, Value.pyStr], ?_, ?_⟩
  · rw [Doc.lookup_set_ne _ _ _ _ (by decide)]
    exact Doc.lookup_erase_self d "_id"
  · exact Doc.lookup_set_self _ _ _

theorem rewriteAll_ok (l : List Doc)
    (h : ∀ d ∈ l, ∃ o : ObjectId, d.lookup "_id" = some (.vOid o)) :
    ∃ out, rewriteAll l = some out ∧ out.length = l.length ∧
      (∀ d' ∈ out, d'.lookup "_id" = none) ∧
      ∀ d d', (d, d') ∈ l.zip out →
        ∃ o : ObjectId, d.lookup "_id" = some (.vOid o) ∧
          d'.lookup "id" = some (.vStr o.hex) := by
  induction l with
  | nil => exact ⟨[], rfl, rfl, by simp, by simp⟩
  | cons d rest ih =>
    obtain ⟨o, ho⟩ := h d (by simp)
    obtain ⟨d', hd', hnone, hid⟩ := rewriteId_ok d o ho
    obtain ⟨out, hout, hlen, hnoid, hcorr⟩ := ih (fun x hx => h x (by simp [hx]))
    refine ⟨d' :: out, by simp [rewriteAll, hd', hout], by simp [hlen], ?_, ?_⟩
    · intro x hx
      rcases List.mem_cons.mp hx with hx' | hx'
      · subst hx'
        exact hnone
      · exact hnoid x hx'
    · intro a b hab
      rw [List.zip_cons_cons] at hab
      rcases List.mem_cons.mp hab with hab' | hab'
      · have ha : a = d := congrArg Prod.fst hab'
        have hb : b = d' := congrArg Prod.snd hab'
        subst ha
        subst hb
        exact ⟨o, ho, hid⟩
      · exact hcorr a b hab'

theorem get_documents_sub (c : String) (filt : Doc) (limit : Nat) (store : Store) :
    ∀ d ∈ get_documents c filt limit store, d ∈ store c := by
  intro d hd
  have h1 := List.mem_of_mem_take hd
  exact (List.mem_filter.mp h1).1

/-- C2: every listing endpoint returns at most `limit` entries, never a raw
`_id` field, and each entry carries `id` holding exactly the external string
form of that entry's own removed internal identifier (entries paired with
their fetched documents positionally). -/
theorem list_limit_and_id_rewrite :
    (∀ (c : String) (filt : Doc) (limit : Nat) (store : Store),
      (∀ d ∈ store c, ∃ o : ObjectId, d.lookup "_id" = some (.vOid o)) →
      ∃ out, list_op c filt limit store = some out ∧ out.length ≤ limit ∧
        out.length = (get_documents c filt limit store).length ∧
        (∀ d' ∈ out, d'.lookup "_id" = none) ∧
        ∀ d d', (d, d') ∈ (get_documents c filt limit store).zip out →
          ∃ o : ObjectId, d.lookup "_id" = some (.vOid o) ∧
            d'.lookup "id" = some (.vStr o.hex))
    ∧ (∀ l s, list_users l s = list_op "user" [] l s)
    ∧ (∀ l s, list_games l s = list_op "game" [] l s)
    ∧ (∀ l s, list_puzzles l s = list_op "puzzle" [] l s)
    ∧ (∀ l s, list_lessons l s = list_op "lesson" [] l s)
    ∧ (∀ g l s, list_chat g l s = list_op "chatmessage" (chatFilter g) l s) := by
  refine ⟨?_, fun _ _ => rfl, fun _ _ => rfl, fun _ _ => rfl, fun _ _ => rfl,
    fun _ _ _ => rfl⟩
  intro c filt limit store h
  obtain ⟨out, hout, hlen, hnoid, hcorr⟩ :=
    rewriteAll_ok (get_documents c filt limit store)
      (fun d hd => h d (get_documents_sub c filt limit store d hd))
  refine ⟨out, hout, ?_, hlen, hnoid, hcorr⟩
  rw [hlen]
  exact le_trans (List.length_take_le limit _) le_rfl

/-- A one-user demonstration store. -/
def demoStore : Store := fun c =>
  if c = "user" then
    [[("_id", Value.vOid ⟨"507f1f77bcf86cd799439011"⟩), ("username", Value.vStr "bob"),
      ("rating", Value.vInt 1340)]]
  else []

/-- Witness for C2 at a concrete store and limit. -/
theorem list_limit_and_id_rewrite_witness :
    ∃ out, list_op "user" [] 20 demoStore = some out ∧ out.length ≤ 20 ∧
      out.length = (get_documents "user" [] 20 demoStore).length ∧
      (∀ d' ∈ out, d'.lookup "_id" = none) ∧
      ∀ d d', (d, d') ∈ (get_documents "user" [] 20 demoStore).zip out →
        ∃ o : ObjectId, d.lookup "_id" = some (.vOid o) ∧
          d'.lookup "id" = some (.vStr o.hex) :=
  list_limit_and_id_rewrite.1 "user" [] 20 demoStore (by
    intro d hd
    simp only [demoStore, if_pos, List.mem_singleton] at hd
    subst hd
    exact ⟨⟨"507f1f77bcf86cd799439011"⟩, rfl⟩)

/-- C3: constructing a `User` with rating 99 fails, ratings 100 and 4000
succeed (inclusive bounds), and an omitted rating defaults to 1200. -/
theorem user_rating_validation :
    (∀ i : UserInput, i.rating = some 99 → ∃ e, mkUser i = .error e)
    ∧ (∀ i : UserInput, 3 ≤ i.username.length → i.username.length ≤ 32 →
        (∀ s, i.display_name = some s → s.length ≤ 64) →
        (i.rating = some 100 ∨ i.rating = some 4000) →
        ∃ u, mkUser i = .ok u ∧ u.rating = i.rating.getD 1200)
    ∧ (∀ i : UserInput, 3 ≤ i.username.length → i.username.length ≤ 32 →
        (∀ s, i.display_name = some s → s.length ≤ 64) →
        i.rating = none →
        ∃ u, mkUser i = .ok u ∧ u.rating = 1200) := by
  refine ⟨?_, ?_, ?_⟩
  · intro i h
    unfold mkUser
    split
    · exact ⟨_, rfl⟩
    · split
      · exact ⟨_, rfl⟩
      · simp only [h]
        norm_num
  · intro i h1 h2 hd hr
    unfold mkUser
    rw [if_neg (not_not_intro ⟨h1, h2⟩)]
    have hdc : (match i.display_name with
        | some s => decide (64 < s.length)
        | none => false : Bool) = false := by
      rcases hdn : i.display_name with _ | s
      · rfl
      · simpa using Nat.not_lt.mpr (hd s hdn)
    rw [if_neg (by simp [hdc])]
    rcases hr with hr | hr <;>
      exact ⟨_, by rw [if_neg (by simp [hr])], by simp [hr]⟩
  · intro i h1 h2 hd hr
    unfold mkUser
    rw [if_neg (not_not_intro ⟨h1, h2⟩)]
    have hdc : (match i.display_name with
        | some s => decide (64 < s.length)
        | none => false : Bool) = false := by
      rcases hdn : i.display_name with _ | s
      · rfl
      · simpa using Nat.not_lt.mpr (hd s hdn)
    rw [if_neg (by simp [hdc])]
    exact ⟨_, by rw [if_neg (by simp [hr])], by simp [hr]⟩

/-- Witness for C3 at concrete inputs. -/
theorem user_rating_validation_witness :
    (∃ e, mkUser ⟨"alice", none, none, some 99, none⟩ = .error e)
    ∧ (∃ u, mkUser ⟨"alice", none, none, some 100, none⟩ = .ok u ∧
        u.rating = (some (100 : Int)).getD 1200)
    ∧ (∃ u, mkUser ⟨"alice", none, none, some 4000, none⟩ = .ok u ∧
        u.rating = (some (4000 : Int)).getD 1200)
    ∧ (∃ u, mkUser ⟨"alice", none, none, none, none⟩ = .ok u ∧ u.rating = 1200) :=
  ⟨user_rating_validation.1 _ rfl,
   user_rating_validation.2.1 ⟨"alice", none, none, some 100, none⟩ (by decide) (by decide)
     (by intro s h; cases h) (Or.inl rfl),
   user_rating_validation.2.1 ⟨"alice", none, none, some 4000, none⟩ (by decide) (by decide)
     (by intro s h; cases h) (Or.inr rfl),
   user_rating_validation.2.2 ⟨"alice", none, none, none, none⟩ (by decide) (by decide)
     (by intro s h; cases h) rfl⟩

/-- C7: every create and every list endpoint addresses the collection named by
lowercasing the record-kind name. -/
theorem collection_naming_lowercase :
    (∀ u nid s, create_user u nid s = create_document (lowercaseName "User") u.toDoc nid s)
    ∧ (∀ l s, list_users l s = list_op (lowercaseName "User") [] l s)
    ∧ (∀ p nid s, create_game p nid s =
        (gameOfPayload p).map (fun g => create_document (lowercaseName "Game") g.toDoc nid s))
    ∧ (∀ l s, list_games l s = list_op (lowercaseName "Game") [] l s)
    ∧ (∀ p nid s, create_puzzle p nid s =
        create_document (lowercaseName "Puzzle") p.toDoc nid s)
    ∧ (∀ l s, list_puzzles l s = list_op (lowercaseName "Puzzle") [] l s)
    ∧ (∀ le nid s, create_lesson le nid s =
        create_document (lowercaseName "Lesson") le.toDoc nid s)
    ∧ (∀ l s, list_lessons l s = list_op (lowercaseName "Lesson") [] l s)
    ∧ (∀ m nid s, post_chat m nid s =
        create_document (lowercaseName "ChatMessage") m.toDoc nid s)
    ∧ (∀ g l s, list_chat g l s =
        list_op (lowercaseName "ChatMessage") (chatFilter g) l s) :=
  ⟨fun _ _ _ => rfl, fun _ _ => rfl, fun _ _ _ => rfl, fun _ _ => rfl, fun _ _ _ => rfl,
   fun _ _ => rfl, fun _ _ _ => rfl, fun _ _ => rfl, fun _ _ _ => rfl, fun _ _ _ => rfl⟩

/-- C8: parsing an external identifier succeeds exactly on 24-character
hexadecimal strings and otherwise fails with status 400 "Invalid id". -/
theorem oid_wellformedness (s : String) :
    ((s.length = 24 ∧ ∀ c ∈ s.data, isHexChar c = true) →
      ∃ o, oid s = .ok o ∧ o.hex = s)
    ∧ ((¬ (s.length = 24 ∧ ∀ c ∈ s.data, isHexChar c = true)) →
      oid s = .error ⟨400, "Invalid id"⟩) := by
  have hv : validObjectIdString s = true ↔
      (s.length = 24 ∧ ∀ c ∈ s.data, isHexChar c = true) := by
    simp [validObjectIdString, List.all_eq_true]
  constructor
  · intro h
    refine ⟨⟨s⟩, ?_, rfl⟩
    simp [oid, hv.mpr h]
  · intro h
    have hf : validObjectIdString s = false := by
      cases hvb : validObjectIdString s
      · rfl
      · exact absurd (hv.mp hvb) h
    simp [oid, hf]

/-- Witness for C8: one well-formed and one malformed identifier string. -/
theorem oid_wellformedness_witness :
    (∃ o, oid "507f1f77bcf86cd799439011" = .ok o ∧
      o.hex = "507f1f77bcf86cd799439011")
    ∧ oid "nothex" = .error ⟨400, "Invalid id"⟩ :=
  ⟨(oid_wellformedness "507f1f77bcf86cd799439011").1 (by decide),
   (oid_wellformedness "nothex").2 (by decide)⟩

/-- C9: a `Game` with `white_id = black_id` constructs successfully, for every
status and every move history independently (no cross-field validation), and
`create_game` accepts a payload with equal player ids. -/
theorem game_no_cross_field_validation :
    (∀ (s f : String) (st : GStatus) (tc : TimeControl) (mv : List String) (t : Turn),
      mkGame s s st tc 0 f mv t 300000 300000 =
        .ok ⟨s, s, st, tc, 0, f, mv, t, 300000, 300000⟩)
    ∧ (∀ (s : String) (nid : ObjectId) (store : Store),
      ∃ res, create_game ⟨s, s, "blitz", 0⟩ nid store = .ok res) := by
  constructor
  · intro s f st tc mv t
    rfl
  · intro s nid store
    exact ⟨_, rfl⟩

/-- C10: listing chat with an empty-string game id uses the empty filter and
behaves identically to listing with no game id at all. -/
theorem chat_empty_game_id_filter :
    chatFilter (some "") = chatFilter none
    ∧ ∀ (limit : Nat) (store : Store),
      list_chat (some "") limit store = list_chat none limit store :=
  ⟨rfl, fun _ _ => rfl⟩

/- ## Matchmaking lemmas -/

/-- The selection loop with the requester-skipping already factored out: scan
candidates in order, keeping the first strictly-smaller rating difference. -/
def scanF (myr : Int) : List UserDoc → Option UserDoc → Nat → Option UserDoc
  | [], best, _ => best
  | u :: rest, best, bestDiff =>
    if diffTo myr u < bestDiff then scanF myr rest (some u) (diffTo myr u)
    else scanF myr rest best bestDiff

/-- The running champion of the scan: the first candidate attaining the
minimal rating difference, seeded with `w`. -/
def champ (myr : Int) (w : UserDoc) : List UserDoc → UserDoc
  | [] => w
  | u :: rest => if diffTo myr u < diffTo myr w then champ myr u rest else champ myr w rest

theorem bestLoop_eq_scanF (uid : String) (myr : Int) (l : List UserDoc)
    (b : Option UserDoc) (d : Nat) :
    bestLoop uid myr l b d = scanF myr (l.filter (fun u => !(u.idStr == uid))) b d := by
  induction l generalizing b d with
  | nil => rfl
  | cons u rest ih =>
    by_cases h : u.idStr = uid
    · have hb : (u.idStr == uid) = true := by simp [h]
      simp [bestLoop, List.filter_cons, hb, ih]
    · have hb : (u.idStr == uid) = false := by simp [h]
      simp only [bestLoop, hb, Bool.false_eq_true, if_false, List.filter_cons,
        Bool.not_false, if_true, scanF]
      by_cases hd : diffTo myr u < d <;> simp [hd, ih]

theorem scanF_some_eq_champ (myr : Int) (l : List UserDoc) (w : UserDoc) :
    scanF myr l (some w) (diffTo myr w) = some (champ myr w l) := by
  induction l generalizing w with
  | nil => rfl
  | cons u rest ih =>
    by_cases h : diffTo myr u < diffTo myr w <;> simp [scanF, champ, h, ih]

theorem champ_le_self (myr : Int) (w : UserDoc) (l : List UserDoc) :
    diffTo myr (champ myr w l) ≤ diffTo myr w := by
  induction l generalizing w with
  | nil => exact le_rfl
  | cons u rest ih =>
    by_cases h : diffTo myr u < diffTo myr w
    · simpa [champ, h] using le_trans (ih u) (le_of_lt h)
    · simpa [champ, h] using ih w

theorem champ_min (myr : Int) (w : UserDoc) (l : List UserDoc) :
    ∀ v ∈ l, diffTo myr (champ myr w l) ≤ diffTo myr v := by
  induction l generalizing w with
  | nil => simp
  | cons u rest ih =>
    intro v hv
    rcases List.mem_cons.mp hv with hv' | hv'
    · subst hv'
      by_cases h : diffTo myr v < diffTo myr w
      · simpa [champ, h] using champ_le_self myr v rest
      · simpa [champ, h] using le_trans (champ_le_self myr w rest) (Nat.le_of_not_lt h)
    · by_cases h : diffTo myr u < diffTo myr w
      · simpa [champ, h] using ih u v hv'
      · simpa [champ, h] using ih w v hv'

theorem champ_mem (myr : Int) (w : UserDoc) (l : List UserDoc) :
    champ myr w l ∈ w :: l := by
  induction l generalizing w with
  | nil => simp [champ]
  | cons u rest ih =>
    by_cases h : diffTo myr u < diffTo myr w
    · simp only [champ, h, if_true]
      rcases List.mem_cons.mp (ih u) with h' | h'
      · simp [h']
      · simp [List.mem_cons, h']
    · simp only [champ, h, if_false]
      rcases List.mem_cons.mp (ih w) with h' | h'
      · simp [h']
      · simp [List.mem_cons, h']

theorem champ_first (myr : Int) (w : UserDoc) (l : List UserDoc) :
    ∃ l1 l2, w :: l = l1 ++ champ myr w l :: l2 ∧
      ∀ v ∈ l1, diffTo myr (champ myr w l) < diffTo myr v := by
  induction l generalizing w with
  | nil => exact ⟨[], [], rfl, by simp⟩
  | cons u rest ih =>
    by_cases h : diffTo myr u < diffTo myr w
    · obtain ⟨l1, l2, heq, hlt⟩ := ih u
      refine ⟨w :: l1, l2, ?_, ?_⟩
      · simp only [champ, h, if_true]
        rw [List.cons_append, ← heq]
      · intro v hv
        rcases List.mem_cons.mp hv with hv' | hv'
        · subst hv'
          simp only [champ, h, if_true]
          exact lt_of_le_of_lt (champ_le_self myr u rest) h
        · simpa [champ, h] using hlt v hv'
    · obtain ⟨l1, l2, heq, hlt⟩ := ih w
      have hch : champ myr w (u :: rest) = champ myr w rest := by
        simp [champ, h]
      cases l1 with
      | nil =>
        simp only [List.nil_append] at heq
        have hcw : champ myr w rest = w := (List.cons_eq_cons.mp heq).1.symm
        refine ⟨[], u :: rest, ?_, by simp⟩
        rw [List.nil_append, hch, hcw]
      | cons a t =>
        obtain ⟨hwa, hrest⟩ := List.cons_eq_cons.mp heq
        have hcw : diffTo myr (champ myr w rest) < diffTo myr w := by
          have h1 := hlt a (by simp)
          rw [← hwa] at h1
          exact h1
        refine ⟨w :: u :: t, l2, ?_, ?_⟩
        · rw [hch, List.cons_append, List.cons_append]
          exact congrArg (w :: ·) (congrArg (u :: ·) hrest)
        · intro v hv
          rcases List.mem_cons.mp hv with hv' | hv'
          · subst hv'
            rw [hch]
            exact hcw
          · rcases List.mem_cons.mp hv' with hv'' | hv''
            · subst hv''
              rw [hch]
              exact lt_of_lt_of_le hcw (Nat.le_of_not_lt h)
            · rw [hch]
              exact hlt v (by simp [hv''])

theorem scanF_mem (myr : Int) (l : List UserDoc) :
    ∀ (b : Option UserDoc) (d : Nat) (r : UserDoc),
      scanF myr l b d = some r → b = some r ∨ r ∈ l := by
  induction l with
  | nil =>
    intro b d r h
    exact Or.inl h
  | cons u rest ih =>
    intro b d r h
    simp only [scanF] at h
    by_cases hd : diffTo myr u < d
    · rw [if_pos hd] at h
      rcases ih _ _ _ h with h' | h'
      · have hur := Option.some_inj.mp h'
        subst hur
        exact Or.inr (List.mem_cons_self _ _)
      · exact Or.inr (by simp [h'])
    · rw [if_neg hd] at h
      rcases ih _ _ _ h with h' | h'
      · exact Or.inl h'
      · exact Or.inr (by simp [h'])

/-- C4: when the requesting id matches no fetched user's external id,
matchmaking fails with the 404 "User not found" outcome. -/
theorem matchmake_unknown_user (users : List UserDoc) (uid : String)
    (h : ∀ u ∈ users, u.idStr ≠ uid) :
    matchmake users uid = .userNotFound := by
  unfold matchmake
  rw [List.find?_eq_none.mpr (by intro u hu; simp [h u hu])]

/-- Witness for C4 at a concrete user list and unknown id. -/
theorem matchmake_unknown_user_witness :
    matchmake [⟨⟨"aaa"⟩, some "alice", some 1200⟩] "zzz" = .userNotFound :=
  matchmake_unknown_user [⟨⟨"aaa"⟩, some "alice", some 1200⟩] "zzz" (by decide)

/-- C5: when the requester is found but every fetched user carries the
requester's id, matchmaking reports `found: False` rather than an error. -/
theorem matchmake_no_other_users (users : List UserDoc) (uid : String) (me : UserDoc)
    (hme : users.find? (fun u => u.idStr == uid) = some me)
    (hall : ∀ u ∈ users, u.idStr = uid) :
    matchmake users uid = .noneFound := by
  unfold matchmake
  rw [hme]
  have hfil : users.filter (fun u => !(u.idStr == uid)) = [] := by
    rw [List.filter_eq_nil_iff]
    intro u hu
    simp [hall u hu]
  show (match bestLoop uid me.ratingVal users none (10 ^ 9) with
    | none => MatchResult.noneFound
    | some best =>
        MatchResult.matched ⟨best.idStr, best.username, best.rating.getD 1200⟩) =
    MatchResult.noneFound
  rw [bestLoop_eq_scanF, hfil]
  rfl

/-- Witness for C5: a single-user set. -/
theorem matchmake_no_other_users_witness :
    matchmake [⟨⟨"aaa"⟩, some "alice", some 1200⟩] "aaa" = .noneFound :=
  matchmake_no_other_users [⟨⟨"aaa"⟩, some "alice", some 1200⟩] "aaa"
    ⟨⟨"aaa"⟩, some "alice", some 1200⟩ (by decide) (by decide)

/-- C6: a successful match reports exactly some fetched user's external id,
username and rating (with the 1200 default). -/
theorem matchmake_reports_opponent_fields (users : List UserDoc) (uid : String)
    (o : Opponent) (h : matchmake users uid = .matched o) :
    ∃ b ∈ users, o.id = b.idStr ∧ o.username = b.username ∧
      o.rating = b.rating.getD 1200 := by
  unfold matchmake at h
  cases hf : users.find? (fun u => u.idStr == uid) with
  | none =>
    rw [hf] at h
    cases h
  | some me =>
    rw [hf] at h
    replace h : (match bestLoop uid me.ratingVal users none (10 ^ 9) with
      | none => MatchResult.noneFound
      | some best =>
          MatchResult.matched ⟨best.idStr, best.username, best.rating.getD 1200⟩) =
        MatchResult.matched o := h
    cases hb : bestLoop uid me.ratingVal users none (10 ^ 9) with
    | none =>
      rw [hb] at h
      cases h
    | some b =>
      rw [hb] at h
      have ho : o = ⟨b.idStr, b.username, b.rating.getD 1200⟩ := by
        injection h with h'
        exact h'.symm
      rw [bestLoop_eq_scanF] at hb
      rcases scanF_mem _ _ _ _ _ hb with h' | h'
      · cases h'
      · exact ⟨b, List.mem_of_mem_filter h', by rw [ho], by rw [ho], by rw [ho]⟩

/-- Witness for C6 at a concrete successful match. -/
theorem matchmake_reports_opponent_fields_witness :
    ∃ b ∈ [(⟨⟨"aaa"⟩, some "alice", some 1200⟩ : UserDoc),
           ⟨⟨"bbb"⟩, some "bob", some 1300⟩],
      Opponent.id ⟨"bbb", some "bob", 1300⟩ = b.idStr ∧
      Opponent.username ⟨"bbb", some "bob", 1300⟩ = b.username ∧
      Opponent.rating ⟨"bbb", some "bob", 1300⟩ = b.rating.getD 1200 :=
  matchmake_reports_opponent_fields
    [⟨⟨"aaa"⟩, some "alice", some 1200⟩, ⟨⟨"bbb"⟩, some "bob", some 1300⟩]
    "aaa" ⟨"bbb", some "bob", 1300⟩ (by decide)

/-- C1: with the requester present and at least one other user, matchmaking
returns the other user of minimal absolute rating difference, and on ties the
first encountered in fetch order. -/
theorem matchmake_selects_closest_first (users : List UserDoc) (uid : String)
    (me : UserDoc)
    (hme : users.find? (fun u => u.idStr == uid) = some me)
    (hb : ∀ u ∈ users, 100 ≤ u.ratingVal ∧ u.ratingVal ≤ 4000)
    (hex : ∃ u ∈ users, u.idStr ≠ uid) :
    ∃ opp, matchmake users uid = .matched ⟨opp.idStr, opp.username, opp.rating.getD 1200⟩ ∧
      opp ∈ users ∧ opp.idStr ≠ uid ∧
      (∀ v ∈ users, v.idStr ≠ uid →
        diffTo me.ratingVal opp ≤ diffTo me.ratingVal v) ∧
      ∃ before after,
        users.filter (fun u => !(u.idStr == uid)) = before ++ opp :: after ∧
        ∀ v ∈ before, diffTo me.ratingVal opp < diffTo me.ratingVal v := by
  have hmemme : me ∈ users := List.mem_of_find?_eq_some hme
  have hdiff : ∀ u ∈ users.filter (fun u => !(u.idStr == uid)),
      diffTo me.ratingVal u < 10 ^ 9 := by
    intro u hu
    have h1 := hb u (List.mem_of_mem_filter hu)
    have h2 := hb me hmemme
    have hp : (10 : Nat) ^ 9 = 1000000000 := by norm_num
    unfold diffTo
    rw [hp]
    omega
  obtain ⟨u0, hu0mem, hu0ne⟩ := hex
  have hu0cand : u0 ∈ users.filter (fun u => !(u.idStr == uid)) :=
    List.mem_filter.mpr ⟨hu0mem, by simp [hu0ne]⟩
  cases hc : users.filter (fun u => !(u.idStr == uid)) with
  | nil =>
    rw [hc] at hu0cand
    cases hu0cand
  | cons w rest =>
    have hw : diffTo me.ratingVal w < 10 ^ 9 := hdiff w (by rw [hc]; simp)
    have hscan : bestLoop uid me.ratingVal users none (10 ^ 9) =
        some (champ me.ratingVal w rest) := by
      rw [bestLoop_eq_scanF, hc]
      simp only [scanF]
      rw [if_pos hw]
      exact scanF_some_eq_champ me.ratingVal rest w
    have hcmem : champ me.ratingVal w rest ∈ users.filter (fun u => !(u.idStr == uid)) := by
      rw [hc]
      exact champ_mem _ _ _
    refine ⟨champ me.ratingVal w rest, ?_, ?_, ?_, ?_, ?_⟩
    · unfold matchmake
      rw [hme]
      show (match bestLoop uid me.ratingVal users none (10 ^ 9) with
        | none => MatchResult.noneFound
        | some best =>
            MatchResult.matched ⟨best.idStr, best.username, best.rating.getD 1200⟩) =
        MatchResult.matched ⟨(champ me.ratingVal w rest).idStr,
          (champ me.ratingVal w rest).username,
          (champ me.ratingVal w rest).rating.getD 1200⟩
      rw [hscan]
    · exact List.mem_of_mem_filter hcmem
    · have := (List.mem_filter.mp hcmem).2
      simpa using this
    · intro v hv hvne
      have hvc : v ∈ users.filter (fun u => !(u.idStr == uid)) :=
        List.mem_filter.mpr ⟨hv, by simp [hvne]⟩
      rw [hc] at hvc
      rcases List.mem_cons.mp hvc with h' | h'
      · rw [h']
        exact champ_le_self _ _ _
      · exact champ_min _ _ _ v h'
    · obtain ⟨l1, l2, heq, hlt⟩ := champ_first me.ratingVal w rest
      exact ⟨l1, l2, heq, hlt⟩

/-- Witness for C1 on the spec's tie-break example: A(1200), B(1300), C(1100)
fetched in order, requesting A — B wins the tie. -/
theorem matchmake_selects_closest_first_witness :
    ∃ opp, matchmake [(⟨⟨"aaa"⟩, some "alice", some 1200⟩ : UserDoc),
        ⟨⟨"bbb"⟩, some "bob", some 1300⟩, ⟨⟨"ccc"⟩, some "carol", some 1100⟩] "aaa" =
        .matched ⟨opp.idStr, opp.username, opp.rating.getD 1200⟩ ∧
      opp ∈ [(⟨⟨"aaa"⟩, some "alice", some 1200⟩ : UserDoc),
        ⟨⟨"bbb"⟩, some "bob", some 1300⟩, ⟨⟨"ccc"⟩, some "carol", some 1100⟩] ∧
      opp.idStr ≠ "aaa" ∧
      (∀ v ∈ [(⟨⟨"aaa"⟩, some "alice", some 1200⟩ : UserDoc),
          ⟨⟨"bbb"⟩, some "bob", some 1300⟩, ⟨⟨"ccc"⟩, some "carol", some 1100⟩],
        v.idStr ≠ "aaa" →
        diffTo (UserDoc.ratingVal ⟨⟨"aaa"⟩, some "alice", some 1200⟩) opp ≤
          diffTo (UserDoc.ratingVal ⟨⟨"aaa"⟩, some "alice", some 1200⟩) v) ∧
      ∃ before after,
        List.filter (fun u => !(u.idStr == "aaa"))
            [(⟨⟨"aaa"⟩, some "alice", some 1200⟩ : UserDoc),
             ⟨⟨"bbb"⟩, some "bob", some 1300⟩, ⟨⟨"ccc"⟩, some "carol", some 1100⟩] =
          before ++ opp :: after ∧
        ∀ v ∈ before,
          diffTo (UserDoc.ratingVal ⟨⟨"aaa"⟩, some "alice", some 1200⟩) opp <
            diffTo (UserDoc.ratingVal ⟨⟨"aaa"⟩, some "alice", some 1200⟩) v :=
  matchmake_selects_closest_first
    [⟨⟨"aaa"⟩, some "alice", some 1200⟩, ⟨⟨"bbb"⟩, some "bob", some 1300⟩,
     ⟨⟨"ccc"⟩, some "carol", some 1100⟩]
    "aaa" ⟨⟨"aaa"⟩, some "alice", some 1200⟩ (by decide) (by decide)
    ⟨⟨⟨"bbb"⟩, some "bob", some 1300⟩, by decide, by decide⟩
